import Mathlib

/-
Verification development for v2ray-subscr.py (timlu1024/v2rayN-linux).

The Python program is shallowly embedded: each Python function becomes a Lean
definition of the same name, dictionaries become association lists over the
`PyVal` value type, and code that can raise a Python exception returns
`Except PyErr _`, with `Except.error` modelling an exception that propagates
to the caller (the program installs no exception handler anywhere, so an
error aborts the whole run).

Machine-level library behaviour (regular expressions, urllib, base64, json)
is modelled by explicit executable definitions that follow the documented
CPython semantics on the input shapes this program feeds them; each such
definition carries a comment stating the modelled scope.
-/

/-- A Python value as it occurs in this program's dictionaries: only strings
and integers reach the node-config records (vmess JSON payloads are flat
string/integer objects, vless query values are strings, ports are ints). -/
inductive PyVal where
  | str (s : String)
  | int (n : Int)
deriving DecidableEq

/-- The Python exceptions this program can raise.  `keyError k` is a dict
lookup failure on key `k`; `typeError` covers subscripting `None` (the failed
regex match at `parseVlessSubscr`) and string operations on non-strings;
the remaining constructors model `base64`/`unicode`/`json` decode failures
and a failed `assert`. -/
inductive PyErr where
  | keyError (k : String)
  | typeError
  | assertionError
  | b64Error
  | unicodeError
  | jsonError
  | valueError
deriving DecidableEq

/-- Decidable equality of `Except` results, for evaluating the model on
concrete inputs. -/
instance {ε α : Type} [DecidableEq ε] [DecidableEq α] :
    DecidableEq (Except ε α)
  | Except.ok a, Except.ok b =>
    if h : a = b then isTrue (by rw [h])
    else isFalse (by intro he; cases he; exact h rfl)
  | Except.ok _, Except.error _ => isFalse (by intro h; cases h)
  | Except.error _, Except.ok _ => isFalse (by intro h; cases h)
  | Except.error e, Except.error f =>
    if h : e = f then isTrue (by rw [h])
    else isFalse (by intro he; cases he; exact h rfl)

/-- A Python dict with string keys in insertion order (the program only ever
inserts fresh keys, and `parse_qs` groups duplicates before insertion). -/
abbrev NodeConfig := List (String × PyVal)

/-- Dict lookup `d[k]` without exception: first binding for `k`. -/
def lookupNC (nc : NodeConfig) (k : String) : Option PyVal :=
  match nc with
  | [] => none
  | (k', v) :: rest => if k' = k then some v else lookupNC rest k

/-- Dict lookup `d[k]`: raises `KeyError(k)` when the key is absent. -/
def getItem (nc : NodeConfig) (k : String) : Except PyErr PyVal :=
  match lookupNC nc k with
  | some v => Except.ok v
  | none => Except.error (PyErr.keyError k)

/-- Python `k in d`. -/
def containsKey (nc : NodeConfig) (k : String) : Bool :=
  (lookupNC nc k).isSome

/-- Dict store `d[k] = v`: replaces an existing binding in place, otherwise
appends at the end (Python dict insertion order). -/
def setItem (nc : NodeConfig) (k : String) (v : PyVal) : NodeConfig :=
  match nc with
  | [] => [(k, v)]
  | (k', v') :: rest =>
    if k' = k then (k', v) :: rest else (k', v') :: setItem rest k v

/-- Python truthiness of the values in scope: `""` and `0` are falsy. -/
def truthy : PyVal → Bool
  | PyVal.str s => !(s == "")
  | PyVal.int n => !(n == 0)

/-! ## Character classes

`v2ray-subscr.py` uses `re` character classes `\w`, `\s`, `\d` on `str`
patterns, which are Unicode-aware in CPython.  The models below are exact on
ASCII and on the Latin-1 block; beyond Latin-1 the `\w` model conservatively
returns `false` (Python additionally accepts further Unicode alphanumerics;
no input analysed in this development lies in that region). -/

/-- ASCII decimal digit, the `\d` class restricted to ASCII (Python also
accepts other Unicode decimal digits; not exercised here). -/
def isAsciiDigit (c : Char) : Bool :=
  '0' ≤ c && c ≤ '9'

/-- Latin-1 letters: `ª`, `µ`, `º` and the two letter ranges of the Latin-1
supplement (excluding `×` U+00D7 and `÷` U+00F7). -/
def isLatin1Letter (c : Char) : Bool :=
  c.toNat = 0xAA || c.toNat = 0xB5 || c.toNat = 0xBA ||
  (0xC0 ≤ c.toNat && c.toNat ≤ 0xFF && c.toNat ≠ 0xD7 && c.toNat ≠ 0xF7)

/-- Python regex `\w` (word character): ASCII alphanumerics, underscore, and
Unicode alphanumerics (modelled through Latin-1, see section comment). -/
def isPyWord (c : Char) : Bool :=
  ('A' ≤ c && c ≤ 'Z') || ('a' ≤ c && c ≤ 'z') || isAsciiDigit c ||
  c = '_' || isLatin1Letter c

/-- Python regex `\s` (whitespace): ASCII whitespace and the Latin-1
whitespace characters NEL (U+0085) and NBSP (U+00A0). -/
def isPySpace (c : Char) : Bool :=
  c = ' ' || c = '\t' || c = '\n' || c = '\r' ||
  c.toNat = 0x0B || c.toNat = 0x0C ||
  c.toNat = 0x1C || c.toNat = 0x1D || c.toNat = 0x1E || c.toNat = 0x1F ||
  c.toNat = 0x85 || c.toNat = 0xA0

/-- The class `[-\s]` collapsed by the second substitution of
`strToFileName`. -/
def isDashSpace (c : Char) : Bool :=
  c = '-' || isPySpace c

/-- `re.sub(r"[-\s]+", "-", _)`: every maximal run of hyphens/whitespace is
replaced by a single hyphen.  The boolean flag records whether the scan is
currently inside such a run (so further run characters emit nothing). -/
def collapseDashRuns (inRun : Bool) : List Char → List Char
  | [] => []
  | c :: rest =>
    if isDashSpace c then
      if inRun then collapseDashRuns true rest
      else '-' :: collapseDashRuns true rest
    else c :: collapseDashRuns false rest

/-- `strToFileName` (v2ray-subscr.py:16): remove every character outside
`[\w\s-]`, then collapse runs of `[-\s]` to a single `-`. -/
def strToFileName (s : String) : String :=
  String.mk (collapseDashRuns false
    (s.data.filter (fun c => isPyWord c || isPySpace c || c = '-')))

/-! ## urllib.parse.urlparse

Modelled per CPython `urlsplit` for the components this program reads
(scheme, netloc, query, fragment): an initial `scheme:` is split off when the
prefix before the first `:` is non-empty, starts with a letter and contains
only scheme characters; a netloc follows `//` and extends to the next
`/`, `?` or `#`; the fragment is split at the first `#` after the netloc,
then the query at the first `?` of the part before the fragment.  Scheme
lowercasing is modelled for ASCII. -/

/-- Split a character list at the first occurrence of `sep`:
`(before, none)` when `sep` is absent, `(before, some after)` otherwise. -/
def splitFirst (sep : Char) : List Char → List Char × Option (List Char)
  | [] => ([], none)
  | c :: rest =>
    if c = sep then ([], some rest)
    else
      match splitFirst sep rest with
      | (before, after) => (c :: before, after)

/-- ASCII lowercasing, as applied by `urlparse` to the scheme. -/
def asciiLower (c : Char) : Char :=
  if 'A' ≤ c && c ≤ 'Z' then Char.ofNat (c.toNat + 32) else c

/-- Characters allowed in a URL scheme after the first letter. -/
def isSchemeChar (c : Char) : Bool :=
  ('A' ≤ c && c ≤ 'Z') || ('a' ≤ c && c ≤ 'z') || isAsciiDigit c ||
  c = '+' || c = '-' || c = '.'

/-- The components of `urllib.parse.urlparse` read by this program. -/
structure UrlParts where
  scheme : String
  netloc : String
  query : String
  fragment : String
deriving DecidableEq

/-- `urllib.parse.urlparse`, restricted to the components in use. -/
def urlparse (s : String) : UrlParts :=
  let (beforeColon, afterColon) := splitFirst ':' s.data
  let (scheme, rest) :=
    match afterColon with
    | some after =>
      if beforeColon ≠ [] &&
          (match beforeColon with
           | c :: cs => (('A' ≤ c && c ≤ 'Z') || ('a' ≤ c && c ≤ 'z')) &&
               cs.all isSchemeChar
           | [] => false) then
        (beforeColon.map asciiLower, after)
      else ([], s.data)
    | none => ([], s.data)
  let (netloc, rest) :=
    match rest with
    | '/' :: '/' :: tl =>
      (tl.takeWhile (fun c => c ≠ '/' && c ≠ '?' && c ≠ '#'),
       tl.dropWhile (fun c => c ≠ '/' && c ≠ '?' && c ≠ '#'))
    | _ => ([], rest)
  let (beforeFrag, fragment) :=
    match splitFirst '#' rest with
    | (b, some f) => (b, f)
    | (b, none) => (b, [])
  let query :=
    match splitFirst '?' beforeFrag with
    | (_, some q) => q
    | (_, none) => []
  ⟨String.mk scheme, String.mk netloc, String.mk query, String.mk fragment⟩

/-! ## urllib.parse.parse_qs with keep_blank_values=True

Modelled per CPython `parse_qsl`: split the query on `&`, drop empty chunks,
split each chunk at the first `=` (a chunk without `=` gets value `""`
because blank values are kept), keep pairs with empty values (again because
of the flag), and percent-decode name and value after replacing `+` by a
space.  `parse_qs` then groups values by key, keys ordered by first
occurrence, values in query order. -/

/-- Value of a hexadecimal digit character. -/
def hexVal (c : Char) : Option Nat :=
  if '0' ≤ c && c ≤ '9' then some (c.toNat - 48)
  else if 'a' ≤ c && c ≤ 'f' then some (c.toNat - 87)
  else if 'A' ≤ c && c ≤ 'F' then some (c.toNat - 55)
  else none

/-- First pass of `urllib.parse.unquote`: each valid `%xx` escape becomes a
byte (`Sum.inr`), everything else stays a literal character (`Sum.inl`);
malformed escapes are left literal, as in CPython. -/
def pctScan : List Char → List (Sum Char Nat)
  | [] => []
  | '%' :: a :: b :: rest =>
    match hexVal a, hexVal b with
    | some x, some y => Sum.inr (16 * x + y) :: pctScan rest
    | _, _ => Sum.inl '%' :: pctScan (a :: b :: rest)
  | c :: rest => Sum.inl c :: pctScan rest

/-- UTF-8 decoding with `errors="replace"` semantics: an invalid lead or
truncated sequence yields U+FFFD and the scan resumes at the next byte
(CPython may emit one replacement character per invalid byte of a maximal
invalid subsequence; the difference does not affect any input analysed
here, no claim exercises malformed escapes).  The fuel argument only serves
structural recursion; each step consumes at least one byte, so fuel equal
to the byte count never runs out. -/
def utf8ReplaceAux : Nat → List Nat → List Char
  | 0, _ => []
  | _ + 1, [] => []
  | fuel + 1, b :: rest =>
    if b < 0x80 then
      Char.ofNat b :: utf8ReplaceAux fuel rest
    else if 0xC2 ≤ b && b ≤ 0xDF then
      match rest with
      | b2 :: rest2 =>
        if 0x80 ≤ b2 && b2 ≤ 0xBF then
          Char.ofNat ((b % 0x20) * 64 + (b2 % 0x40)) ::
            utf8ReplaceAux fuel rest2
        else '�' :: utf8ReplaceAux fuel rest
      | [] => ['�']
    else if 0xE0 ≤ b && b ≤ 0xEF then
      match rest with
      | b2 :: b3 :: rest3 =>
        if (0x80 ≤ b2 && b2 ≤ 0xBF) && (0x80 ≤ b3 && b3 ≤ 0xBF) then
          let code := (b % 0x10) * 4096 + (b2 % 0x40) * 64 + (b3 % 0x40)
          if code < 0x800 || (0xD800 ≤ code && code ≤ 0xDFFF) then
            '�' :: utf8ReplaceAux fuel rest
          else
            Char.ofNat code :: utf8ReplaceAux fuel rest3
        else '�' :: utf8ReplaceAux fuel rest
      | _ => ['�']
    else if 0xF0 ≤ b && b ≤ 0xF4 then
      match rest with
      | b2 :: b3 :: b4 :: rest4 =>
        if (0x80 ≤ b2 && b2 ≤ 0xBF) && (0x80 ≤ b3 && b3 ≤ 0xBF) &&
            (0x80 ≤ b4 && b4 ≤ 0xBF) then
          let code := (b % 0x08) * 262144 + (b2 % 0x40) * 4096 +
            (b3 % 0x40) * 64 + (b4 % 0x40)
          if code < 0x10000 || code > 0x10FFFF then
            '�' :: utf8ReplaceAux fuel rest
          else
            Char.ofNat code :: utf8ReplaceAux fuel rest4
        else '�' :: utf8ReplaceAux fuel rest
      | _ => ['�']
    else '�' :: utf8ReplaceAux fuel rest

/-- UTF-8 decoding with replacement, see `utf8ReplaceAux`. -/
def utf8Replace (bs : List Nat) : List Char :=
  utf8ReplaceAux bs.length bs

/-- Second pass of `unquote`: maximal runs of escape bytes are UTF-8 decoded
(with replacement on error), literal characters pass through.  The
accumulator holds the current byte run in reverse. -/
def pctAssemble (acc : List Nat) : List (Sum Char Nat) → List Char
  | [] => utf8Replace acc.reverse
  | Sum.inr b :: rest => pctAssemble (b :: acc) rest
  | Sum.inl c :: rest => utf8Replace acc.reverse ++ c :: pctAssemble [] rest

/-- `urllib.parse.unquote` after the `+`-to-space replacement applied by
`parse_qsl`: i.e. `unquote(s.replace('+', ' '))`. -/
def unquotePlus (s : String) : String :=
  String.mk (pctAssemble []
    (pctScan (s.data.map (fun c => if c = '+' then ' ' else c))))

/-- Split a character list on every occurrence of `sep` (Python
`str.split(sep)`). -/
def splitChar (sep : Char) : List Char → List (List Char)
  | [] => [[]]
  | c :: rest =>
    match splitChar sep rest with
    | [] => [[c]]
    | g :: gs => if c = sep then [] :: g :: gs else (c :: g) :: gs

/-- `urllib.parse.parse_qsl(qs, keep_blank_values=True)`. -/
def parse_qsl (qs : String) : List (String × String) :=
  (splitChar '&' qs.data).filterMap (fun chunk =>
    if chunk = [] then none
    else
      match splitFirst '=' chunk with
      | (name, some value) =>
        some (unquotePlus (String.mk name), unquotePlus (String.mk value))
      | (name, none) => some (unquotePlus (String.mk name), ""))

/-- Append a pair to the grouped representation of `parse_qs`. -/
def addQsPair (acc : List (String × List String)) (k : String) (v : String) :
    List (String × List String) :=
  match acc with
  | [] => [(k, [v])]
  | (k', vs) :: rest =>
    if k' = k then (k', vs ++ [v]) :: rest else (k', vs) :: addQsPair rest k v

/-- `urllib.parse.parse_qs(qs, keep_blank_values=True)`: values grouped per
key, keys in first-occurrence order. -/
def parse_qs (qs : String) : List (String × List String) :=
  (parse_qsl qs).foldl (fun acc p => addQsPair acc p.1 p.2) []

/-! ## base64.b64decode

Modelled per CPython `binascii.a2b_base64` with `validate=False` as called
at v2ray-subscr.py:36: characters outside the base64 alphabet and `=` are
discarded, the remainder is decoded in groups of four with `=` padding
allowed only at the very end; anything else (in particular a leftover group,
CPython's "incorrect padding") raises `binascii.Error` (`PyErr.b64Error`).
CPython additionally tolerates data after a complete padding group
(discarding it); no input in this development has such a tail. -/

/-- Index of a character in the standard base64 alphabet. -/
def b64Char (c : Char) : Option Nat :=
  if 'A' ≤ c && c ≤ 'Z' then some (c.toNat - 65)
  else if 'a' ≤ c && c ≤ 'z' then some (c.toNat - 71)
  else if '0' ≤ c && c ≤ '9' then some (c.toNat + 4)
  else if c = '+' then some 62
  else if c = '/' then some 63
  else none

/-- Decode the filtered base64 text four characters at a time. -/
def b64Quads : List Char → Except PyErr (List Nat)
  | [] => Except.ok []
  | a :: b :: c :: d :: rest =>
    match b64Char a, b64Char b with
    | some x, some y =>
      if c = '=' then
        if d = '=' && rest = [] then Except.ok [x * 4 + y / 16]
        else Except.error PyErr.b64Error
      else
        match b64Char c with
        | some z =>
          if d = '=' then
            if rest = [] then
              Except.ok [x * 4 + y / 16, (y % 16) * 16 + z / 4]
            else Except.error PyErr.b64Error
          else
            match b64Char d with
            | some w =>
              (b64Quads rest).map (fun tail =>
                (x * 4 + y / 16) :: ((y % 16) * 16 + z / 4) ::
                  ((z % 4) * 64 + w) :: tail)
            | none => Except.error PyErr.b64Error
        | none => Except.error PyErr.b64Error
    | _, _ => Except.error PyErr.b64Error
  | _ => Except.error PyErr.b64Error

/-- `base64.b64decode` on ASCII text, yielding bytes. -/
def b64decode (s : String) : Except PyErr (List Nat) :=
  b64Quads (s.data.filter (fun c => (b64Char c).isSome || c = '='))

/-- Strict UTF-8 decoding (`bytes.decode("utf-8")`): any invalid sequence
raises `UnicodeDecodeError`.  Fuel as in `utf8ReplaceAux`. -/
def utf8StrictAux : Nat → List Nat → Except PyErr (List Char)
  | 0, _ => Except.error PyErr.unicodeError
  | _ + 1, [] => Except.ok []
  | fuel + 1, b :: rest =>
    if b < 0x80 then
      (utf8StrictAux fuel rest).map (Char.ofNat b :: ·)
    else if 0xC2 ≤ b && b ≤ 0xDF then
      match rest with
      | b2 :: rest2 =>
        if 0x80 ≤ b2 && b2 ≤ 0xBF then
          (utf8StrictAux fuel rest2).map
            (Char.ofNat ((b % 0x20) * 64 + (b2 % 0x40)) :: ·)
        else Except.error PyErr.unicodeError
      | [] => Except.error PyErr.unicodeError
    else if 0xE0 ≤ b && b ≤ 0xEF then
      match rest with
      | b2 :: b3 :: rest3 =>
        if (0x80 ≤ b2 && b2 ≤ 0xBF) && (0x80 ≤ b3 && b3 ≤ 0xBF) then
          let code := (b % 0x10) * 4096 + (b2 % 0x40) * 64 + (b3 % 0x40)
          if code < 0x800 || (0xD800 ≤ code && code ≤ 0xDFFF) then
            Except.error PyErr.unicodeError
          else
            (utf8StrictAux fuel rest3).map (Char.ofNat code :: ·)
        else Except.error PyErr.unicodeError
      | _ => Except.error PyErr.unicodeError
    else if 0xF0 ≤ b && b ≤ 0xF4 then
      match rest with
      | b2 :: b3 :: b4 :: rest4 =>
        if (0x80 ≤ b2 && b2 ≤ 0xBF) && (0x80 ≤ b3 && b3 ≤ 0xBF) &&
            (0x80 ≤ b4 && b4 ≤ 0xBF) then
          let code := (b % 0x08) * 262144 + (b2 % 0x40) * 4096 +
            (b3 % 0x40) * 64 + (b4 % 0x40)
          if code < 0x10000 || code > 0x10FFFF then
            Except.error PyErr.unicodeError
          else
            (utf8StrictAux fuel rest4).map (Char.ofNat code :: ·)
        else Except.error PyErr.unicodeError
      | _ => Except.error PyErr.unicodeError
    else Except.error PyErr.unicodeError

/-- `bytes.decode("utf-8")`. -/
def utf8Strict (bs : List Nat) : Except PyErr String :=
  (utf8StrictAux (bs.length + 1) bs).map String.mk

/-! ## json.loads, restricted to the vmess payload shape

The vmess node configs this program consumes are flat JSON objects whose
values are strings or integers (`{"ps": ..., "add": ..., "port": ..., ...}`).
`jsonLoadsFlat` models `json.loads` on exactly that sublanguage (string
escapes `\" \\ \/ \b \f \n \r \t` supported) and raises `PyErr.jsonError` on
everything else: for malformed text CPython raises `JSONDecodeError` just the
same, while documents outside the sublanguage (nested objects, arrays,
floats, booleans) are not produced by vmess endpoints and are not exercised
by any theorem below. -/

/-- JSON insignificant whitespace. -/
def isJsonWs (c : Char) : Bool :=
  c = ' ' || c = '\t' || c = '\n' || c = '\r'

/-- Scan a JSON string body after the opening quote; returns the content and
the remainder after the closing quote.  Fuel bounds the scan. -/
def jsonString : Nat → List Char → Except PyErr (List Char × List Char)
  | 0, _ => Except.error PyErr.jsonError
  | _ + 1, [] => Except.error PyErr.jsonError
  | fuel + 1, c :: rest =>
    if c = '"' then Except.ok ([], rest)
    else if c = '\\' then
      match rest with
      | e :: rest2 =>
        let esc : Except PyErr Char :=
          if e = '"' then Except.ok '"'
          else if e = '\\' then Except.ok '\\'
          else if e = '/' then Except.ok '/'
          else if e = 'b' then Except.ok (Char.ofNat 8)
          else if e = 'f' then Except.ok (Char.ofNat 12)
          else if e = 'n' then Except.ok '\n'
          else if e = 'r' then Except.ok '\r'
          else if e = 't' then Except.ok '\t'
          else Except.error PyErr.jsonError
        match esc with
        | Except.ok ch =>
          (jsonString fuel rest2).map (fun p => (ch :: p.1, p.2))
        | Except.error err => Except.error err
      | [] => Except.error PyErr.jsonError
    else (jsonString fuel rest).map (fun p => (c :: p.1, p.2))

/-- Parse a JSON integer (optional minus, decimal digits). -/
def jsonInt (cs : List Char) : Except PyErr (Int × List Char) :=
  let (neg, cs') := match cs with
    | '-' :: tl => (true, tl)
    | _ => (false, cs)
  let digits := cs'.takeWhile isAsciiDigit
  let rest := cs'.dropWhile isAsciiDigit
  if digits = [] then Except.error PyErr.jsonError
  else
    let n : Nat := digits.foldl (fun acc c => acc * 10 + (c.toNat - 48)) 0
    Except.ok (if neg then -(n : Int) else (n : Int), rest)

/-- Parse the members of a flat JSON object after `{`, in textual order
(duplicate keys possible; they are folded with `setItem` afterwards, giving
CPython's last-value-wins dict semantics). -/
def jsonMembers : Nat → List Char →
    Except PyErr (List (String × PyVal) × List Char)
  | 0, _ => Except.error PyErr.jsonError
  | fuel + 1, cs =>
    match cs.dropWhile isJsonWs with
    | '"' :: rest => do
      let (key, rest) ← jsonString (rest.length + 1) rest
      match rest.dropWhile isJsonWs with
      | ':' :: rest => do
        let afterWs := rest.dropWhile isJsonWs
        let (v, rest2) ←
          match afterWs with
          | '"' :: r =>
            (jsonString (r.length + 1) r).map
              (fun p => (PyVal.str (String.mk p.1), p.2))
          | _ => (jsonInt afterWs).map (fun p => (PyVal.int p.1, p.2))
        match rest2.dropWhile isJsonWs with
        | ',' :: rest3 =>
          (jsonMembers fuel rest3).map
            (fun p => ((String.mk key, v) :: p.1, p.2))
        | '}' :: rest3 => Except.ok ([(String.mk key, v)], rest3)
        | _ => Except.error PyErr.jsonError
      | _ => Except.error PyErr.jsonError
    | _ => Except.error PyErr.jsonError

/-- `json.loads` on the flat object sublanguage (see section comment).
Later duplicate keys overwrite earlier ones, as in CPython. -/
def jsonLoadsFlat (s : String) : Except PyErr NodeConfig := do
  match s.data.dropWhile isJsonWs with
  | '{' :: rest =>
    match rest.dropWhile isJsonWs with
    | '}' :: tail =>
      if tail.dropWhile isJsonWs = [] then Except.ok []
      else Except.error PyErr.jsonError
    | _ => do
      let (pairs, tail) ← jsonMembers (rest.length + 1) rest
      if tail.dropWhile isJsonWs = [] then
        Except.ok (pairs.foldl (fun acc p => setItem acc p.1 p.2) [])
      else Except.error PyErr.jsonError
  | _ => Except.error PyErr.jsonError

/-! ## Endpoint Decoder -/

/-- `parseVmessSubscr` (v2ray-subscr.py:26), applied to the netloc of the
subscription line: ASCII-encode (a non-ASCII character raises
`UnicodeEncodeError`), base64-decode, UTF-8-decode, then parse the JSON
node config.  The scheme assertion of the source is checked by the caller
model `parseLine`, which only dispatches here on scheme `vmess`. -/
def parseVmessSubscr (netloc : String) : Except PyErr NodeConfig := do
  if !(netloc.data.all (fun c => c.toNat < 128)) then
    Except.error PyErr.unicodeError
  else do
    let bytes ← b64decode netloc
    let txt ← utf8Strict bytes
    jsonLoadsFlat txt

/-- Character class `[-\da-f]` of the vless authority regex (`\d` as ASCII,
see the character-class section). -/
def isUuidChar (c : Char) : Bool :=
  c = '-' || isAsciiDigit c || ('a' ≤ c && c ≤ 'f')

/-- `re.match(r"^([-\da-f]+)@([^:]+):(\d+)$", netloc)`: the uuid group is
the maximal leading run of `[-\da-f]` (it cannot contain `@`, so no
backtracking arises), the host group runs to the first `:` after the `@`,
and the digits group must exhaust the remainder.  Returns the three groups,
with the port already through `int()`. -/
def matchVlessNetloc (netloc : String) : Option (String × String × Nat) :=
  let cs := netloc.data
  let uuid := cs.takeWhile isUuidChar
  match cs.dropWhile isUuidChar with
  | '@' :: afterAt =>
    if uuid = [] then none
    else
      let host := afterAt.takeWhile (fun c => c ≠ ':')
      match afterAt.dropWhile (fun c => c ≠ ':') with
      | ':' :: digits =>
        if host ≠ [] && digits ≠ [] && digits.all isAsciiDigit then
          some (String.mk uuid, String.mk host,
            digits.foldl (fun acc c => acc * 10 + (c.toNat - 48)) 0)
        else none
      | _ => none
  | _ => none

/-- `parseVlessSubscr` (v2ray-subscr.py:44) on the netloc and query of the
line: a netloc that does not match the authority pattern makes the source
subscript `None` (`m[1]`), raising `TypeError`; otherwise the record holds
`n_uuid`/`n_host`/`n_port` and one `q_`-prefixed entry per query key, bound
to the key's first value (repetitions only produce a warning). -/
def parseVlessSubscr (netloc query : String) : Except PyErr NodeConfig :=
  match matchVlessNetloc netloc with
  | none => Except.error PyErr.typeError
  | some (uuid, host, port) =>
    let base : NodeConfig :=
      [("n_uuid", PyVal.str uuid), ("n_host", PyVal.str host),
       ("n_port", PyVal.int (port : Int))]
    Except.ok ((parse_qs query).foldl
      (fun acc p =>
        setItem acc ("q_" ++ p.1) (PyVal.str (p.2.headD "")))
      base)

/-- One decoded feed entry: the `(nodeType, desc, nodeConfig)` triple
appended by `parseV2rayNSubscr`'s loop (v2ray-subscr.py:114). -/
structure Entry where
  nodeType : String
  desc : PyVal
  config : Option NodeConfig
deriving DecidableEq

/-- The body of `parseV2rayNSubscr`'s per-line loop (v2ray-subscr.py:97):
urlparse the line, dispatch on the scheme, and compute the description
(`ps` field for vmess, fragment for vless/trojan, `"<unknown>"`
otherwise).  Any exception of the decoders propagates: the loop has no
handler. -/
def parseLine (line : String) : Except PyErr Entry :=
  let u := urlparse line
  if u.scheme = "vmess" then do
    let nc ← parseVmessSubscr u.netloc
    let d ← getItem nc "ps"
    Except.ok ⟨"vmess", d, some nc⟩
  else if u.scheme = "vless" || u.scheme = "trojan" then do
    let nc ← parseVlessSubscr u.netloc u.query
    Except.ok ⟨u.scheme, PyVal.str u.fragment, some nc⟩
  else
    Except.ok ⟨u.scheme, PyVal.str "<unknown>", none⟩

/-- The loop of `parseV2rayNSubscr` over the non-empty feed lines: entries
accumulate in order; a raised exception aborts the whole traversal. -/
def parseSubscrLines : List String → Except PyErr (List Entry)
  | [] => Except.ok []
  | l :: rest => do
    let e ← parseLine l
    let es ← parseSubscrLines rest
    Except.ok (e :: es)

/-- Python `str.splitlines`: split at line boundaries (the ASCII ones and
NEL/LS/PS), with `\r\n` as a single boundary and no trailing empty line. -/
def isLineBreak (c : Char) : Bool :=
  c = '\n' || c = '\r' || c.toNat = 0x0B || c.toNat = 0x0C ||
  c.toNat = 0x1C || c.toNat = 0x1D || c.toNat = 0x1E ||
  c.toNat = 0x85 || c.toNat = 0x2028 || c.toNat = 0x2029

/-- `str.splitlines` scan; `cur` holds the current line in reverse. -/
def splitlinesAux (cur : List Char) : List Char → List String
  | [] => if cur = [] then [] else [String.mk cur.reverse]
  | '\r' :: '\n' :: rest => String.mk cur.reverse :: splitlinesAux [] rest
  | c :: rest =>
    if isLineBreak c then String.mk cur.reverse :: splitlinesAux [] rest
    else splitlinesAux (c :: cur) rest

/-- `str.splitlines`. -/
def splitlines (s : String) : List String :=
  splitlinesAux [] s.data

/-- `parseV2rayNSubscr` (v2ray-subscr.py:76) after the external fetch and
the outer base64/UTF-8 decoding of the payload: split into lines, drop the
empty ones (`filter(None, lines)`), and decode each line in order. -/
def parseV2rayNSubscrText (decText : String) : Except PyErr (List Entry) :=
  parseSubscrLines ((splitlines decText).filter (fun l => l ≠ ""))

/-! ## Config Synthesizer -/

/-- The `streamSettings` dict built by the two generators: `network` and
`security` are always present; at most one of the `tlsSettings` /
`xtlsSettings` server names and the `wsSettings` path is added, depending
on the branches taken. -/
structure StreamSettings where
  network : PyVal
  security : PyVal
  tlsSettings : Option PyVal := none
  xtlsSettings : Option PyVal := none
  wsSettings : Option PyVal := none
deriving DecidableEq

/-- `genVmessStreamSettings` (v2ray-subscr.py:119).  `Except.ok none`
models the source's `return None` (unsupported security or network mode);
a missing field raises `KeyError`.  The empty security string is
normalized to `"none"` before the branch. -/
def genVmessStreamSettings (nc : NodeConfig) : Except PyErr (Option StreamSettings) := do
  let net ← getItem nc "net"
  let tls0 ← getItem nc "tls"
  let sec := if tls0 = PyVal.str "" then PyVal.str "none" else tls0
  let secRes : Option (Option PyVal) ←
    if sec = PyVal.str "tls" then
      (getItem nc "host").map (fun h => some (some h))
    else if sec = PyVal.str "none" then pure (some none)
    else pure none
  match secRes with
  | none => Except.ok none
  | some tlsS =>
    if net = PyVal.str "tcp" then
      Except.ok (some ⟨net, sec, tlsS, none, none⟩)
    else if net = PyVal.str "ws" then do
      let p ← getItem nc "path"
      Except.ok (some ⟨net, sec, tlsS, none, some p⟩)
    else Except.ok none

/-- `genVlessStreamSettings` (v2ray-subscr.py:159).  No normalization of the
security mode here: only `"tls"` and `"xtls"` are recognized, anything else
(including `""` and `"none"`) yields the source's `return None`.  When
`q_sni` is present the source reads `q_host` for the mismatch warning before
using it as server name, so a missing `q_host` raises `KeyError` either
way. -/
def genVlessStreamSettings (nc : NodeConfig) : Except PyErr (Option StreamSettings) := do
  let net ← getItem nc "q_type"
  let sec ← getItem nc "q_security"
  let secRes : Option (Option PyVal × Option PyVal) ←
    if sec = PyVal.str "tls" then do
      if containsKey nc "q_sni" then do
        let _ ← getItem nc "q_host"
        pure ()
      let h ← getItem nc "q_host"
      pure (some (some h, none))
    else if sec = PyVal.str "xtls" then do
      if containsKey nc "q_sni" then do
        let _ ← getItem nc "q_host"
        pure ()
      let h ← getItem nc "q_host"
      pure (some (none, some h))
    else pure none
  match secRes with
  | none => Except.ok none
  | some (tlsS, xtlsS) =>
    if net = PyVal.str "tcp" then
      Except.ok (some ⟨net, sec, tlsS, xtlsS, none⟩)
    else if net = PyVal.str "ws" then do
      let p ← getItem nc "q_path"
      Except.ok (some ⟨net, sec, tlsS, xtlsS, some p⟩)
    else Except.ok none

/-- The single user object inside the vnext entry: vmess users carry
`id`/`alterId`, vless users `id`/`encryption`/`flow`. -/
inductive UserObj where
  | vmess (id alterId : PyVal)
  | vless (id encryption flow : PyVal)
deriving DecidableEq

/-- The `settings` block of the one outbound: a `vnext` list with one
address/port/user entry (vmess, vless) or a `servers` list with one
address/port/password/flow entry (trojan). -/
inductive OutSettings where
  | vnext (address port : PyVal) (user : UserObj)
  | servers (address port password flow : PyVal)
deriving DecidableEq

/-- The v2ray config document built by `nodeConfigToV2rayConfig`: one
outbound with protocol name, settings and streamSettings. -/
structure ConfigDocument where
  protocol : String
  settings : OutSettings
  streamSettings : StreamSettings
deriving DecidableEq

/-- `nodeConfigToV2rayConfig` (v2ray-subscr.py:207).  `Except.ok none` is
the source's `return None` (failed streamSettings synthesis, or an
unsupported node type); field reads happen in the evaluation order of the
source's dict literals, so the first missing field determines the
`KeyError`.  A `none` node config (an unknown-scheme entry) would only be
subscripted in the three recognized branches, raising `TypeError`; the
unknown-type branch never touches it. -/
def nodeConfigToV2rayConfig (nodeType : String) (ncOpt : Option NodeConfig) :
    Except PyErr (Option ConfigDocument) :=
  if nodeType = "vmess" then
    match ncOpt with
    | none => Except.error PyErr.typeError
    | some nc => do
      match ← genVmessStreamSettings nc with
      | none => Except.ok none
      | some ss => do
        let a ← getItem nc "add"
        let p ← getItem nc "port"
        let i ← getItem nc "id"
        let aid ← getItem nc "aid"
        Except.ok (some ⟨"vmess", OutSettings.vnext a p (UserObj.vmess i aid), ss⟩)
  else if nodeType = "vless" then
    match ncOpt with
    | none => Except.error PyErr.typeError
    | some nc => do
      match ← genVlessStreamSettings nc with
      | none => Except.ok none
      | some ss => do
        let a ← getItem nc "n_host"
        let p ← getItem nc "n_port"
        let i ← getItem nc "n_uuid"
        let e ← getItem nc "q_encryption"
        let f ← getItem nc "q_flow"
        Except.ok (some ⟨"vless", OutSettings.vnext a p (UserObj.vless i e f), ss⟩)
  else if nodeType = "trojan" then
    match ncOpt with
    | none => Except.error PyErr.typeError
    | some nc => do
      match ← genVlessStreamSettings nc with
      | none => Except.ok none
      | some ss => do
        let a ← getItem nc "n_host"
        let p ← getItem nc "n_port"
        let pw ← getItem nc "n_uuid"
        let f ← getItem nc "q_flow"
        Except.ok (some ⟨"trojan", OutSettings.servers a p pw f, ss⟩)
  else Except.ok none

/-! ## TLS-Override Transform -/

/-- Replace the address of the connection settings (the vnext entry's
address, or the servers entry's address), leaving every other field as it
is. -/
def OutSettings.withAddress : OutSettings → PyVal → OutSettings
  | OutSettings.vnext _ port user, a => OutSettings.vnext a port user
  | OutSettings.servers _ port password flow, a =>
    OutSettings.servers a port password flow

/-- `overrideServerWithTlsName` (v2ray-subscr.py:323).  The source deep
copies the document before mutating the copy's address; in this pure
embedding the result is a new value and the argument is unchanged by
construction.  Reading the server name of a `tls`/`xtls` document without
the corresponding sub-settings dict would raise `KeyError` (never the case
for synthesized documents).  For synthesized documents the settings block
always carries `vnext` or `servers`, so the source's final fallthrough
(`return None` with a truthy name) cannot arise in this model. -/
def overrideServerWithTlsName (d : ConfigDocument) :
    Except PyErr (Option ConfigDocument) := do
  let tlsName : PyVal ←
    if d.streamSettings.security = PyVal.str "tls" then
      match d.streamSettings.tlsSettings with
      | some v => pure v
      | none => Except.error (PyErr.keyError "tlsSettings")
    else if d.streamSettings.security = PyVal.str "xtls" then
      match d.streamSettings.xtlsSettings with
      | some v => pure v
      | none => Except.error (PyErr.keyError "xtlsSettings")
    else pure (PyVal.str "")
  if truthy tlsName then
    Except.ok (some { d with settings := d.settings.withAddress tlsName })
  else
    Except.ok none

/-! ## main: per-entry generation loop and prune pass -/

/-- Python `"%03d" % n`: zero-pad to at least three digits. -/
def format03 (n : Nat) : String :=
  if n < 10 then "00" ++ toString n
  else if n < 100 then "0" ++ toString n
  else toString n

/-- Result of the generation loop: output config file names in production
order (`usedCfgNames`, which the source also uses for the prune pass) and
the skipped-entry counter. -/
structure RunAcc where
  files : List String
  numSkipped : Nat
deriving DecidableEq

/-- The per-node loop of `main` (v2ray-subscr.py:381): synthesize the
document (a synthesis failure counts the entry as skipped and produces no
file; an exception aborts), name the file `"%03d-%s.json" % (idx, ...)` and
advance `idx`, and when `tlsNameAsServer` is set and the TLS-Override
Transform produces a document, also emit the `-tlsServ.json` sibling under
the next index.  File contents are written through the filesystem
collaborator and are not part of this state. -/
def processEntries (flag : Bool) : Nat → List Entry → Except PyErr RunAcc
  | _, [] => Except.ok ⟨[], 0⟩
  | idx, e :: rest => do
    match ← nodeConfigToV2rayConfig e.nodeType e.config with
    | none => do
      let acc ← processEntries flag idx rest
      Except.ok ⟨acc.files, acc.numSkipped + 1⟩
    | some cfg =>
      match e.desc with
      | PyVal.int _ => Except.error PyErr.typeError
      | PyVal.str d =>
        let name := format03 idx ++ "-" ++ strToFileName d ++ ".json"
        if flag then do
          match ← overrideServerWithTlsName cfg with
          | some _ => do
            let name2 := format03 (idx + 1) ++ "-" ++ strToFileName d ++
              "-tlsServ.json"
            let acc ← processEntries flag (idx + 2) rest
            Except.ok ⟨name :: name2 :: acc.files, acc.numSkipped⟩
          | none => do
            let acc ← processEntries flag (idx + 1) rest
            Except.ok ⟨name :: acc.files, acc.numSkipped⟩
        else do
          let acc ← processEntries flag (idx + 1) rest
          Except.ok ⟨name :: acc.files, acc.numSkipped⟩

/-- `re.match(r"^\d\d\d-.*\.json$", name)` on a full file name: three ASCII
digits, a hyphen, then any characters without a newline, ending in
`.json`. -/
def cfgNameCore (cs : List Char) : Bool :=
  match cs with
  | d1 :: d2 :: d3 :: '-' :: rest =>
    isAsciiDigit d1 && isAsciiDigit d2 && isAsciiDigit d3 &&
    decide (rest.length ≥ 5) &&
    rest.drop (rest.length - 5) = ['.', 'j', 's', 'o', 'n'] &&
    (rest.take (rest.length - 5)).all (fun c => c ≠ '\n')
  | _ => false

/-- The generated-file name pattern used by the prune pass
(v2ray-subscr.py:427).  `re`'s `$` also accepts a single newline at the
very end of the string, hence the second disjunct. -/
def cfgNameMatch (s : String) : Bool :=
  cfgNameCore s.data ||
  (s.data.getLast? = some '\n' && cfgNameCore s.data.dropLast)

/-- The prune pass of `main` (v2ray-subscr.py:428): delete every directory
entry that is not among this run's produced names and matches the
generated-file pattern. -/
def pruneDeleted (listing : List String) (used : List String) : List String :=
  listing.filter (fun f => !(used.contains f) && cfgNameMatch f)

/-- The observable outcome of one `main` run (v2ray-subscr.py:352) on an
already-fetched, outer-decoded feed text: the produced file names, the
skipped-entry count, and the file names the prune pass deletes from the
given directory listing.  An uncaught exception anywhere in the pipeline
aborts the run (`Except.error`). -/
structure MainResult where
  files : List String
  numSkipped : Nat
  deleted : List String
deriving DecidableEq

/-- `main` after the external fetch and outer decode: decode the feed,
generate the per-entry files starting at index 0, then prune the output
directory listing. -/
def mainRun (decText : String) (flag : Bool) (listing : List String) :
    Except PyErr MainResult := do
  let entries ← parseV2rayNSubscrText decText
  let acc ← processEntries flag 0 entries
  Except.ok ⟨acc.files, acc.numSkipped, pruneDeleted listing acc.files⟩

/-! ## Helper lemmas -/

theorem strAppend_assoc (a b c : String) : a ++ b ++ c = a ++ (b ++ c) := by
  cases a with
  | mk la =>
    cases b with
    | mk lb =>
      cases c with
      | mk lc => exact congrArg String.mk (List.append_assoc la lb lc)

theorem getItem_ok {nc : NodeConfig} {k : String} {v : PyVal}
    (h : lookupNC nc k = some v) : getItem nc k = Except.ok v := by
  simp [getItem, h]

theorem getItem_err {nc : NodeConfig} {k : String}
    (h : lookupNC nc k = none) :
    getItem nc k = Except.error (PyErr.keyError k) := by
  simp [getItem, h]

theorem containsKey_of_lookup {nc : NodeConfig} {k : String} {v : PyVal}
    (h : lookupNC nc k = some v) : containsKey nc k = true := by
  simp [containsKey, h]

/-- Two adjacent hyphens somewhere in the character list. -/
def hasDoubleDash : List Char → Bool
  | a :: b :: t => (a = '-' && b = '-') || hasDoubleDash (b :: t)
  | _ => false

theorem collapseDashRuns_head_true {l : List Char} {c : Char} {cs : List Char}
    (h : collapseDashRuns true l = c :: cs) : isDashSpace c = false := by
  induction l generalizing c cs with
  | nil => simp [collapseDashRuns] at h
  | cons x rest ih =>
    by_cases hx : isDashSpace x
    · rw [collapseDashRuns, if_pos hx] at h
      exact ih h
    · rw [collapseDashRuns, if_neg hx] at h
      cases h
      simpa using hx

theorem collapseDashRuns_mem {b : Bool} {l : List Char} {c : Char}
    (h : c ∈ collapseDashRuns b l) :
    c = '-' ∨ (c ∈ l ∧ isDashSpace c = false) := by
  induction l generalizing b with
  | nil => simp [collapseDashRuns] at h
  | cons x rest ih =>
    by_cases hx : isDashSpace x
    · cases b with
      | true =>
        rw [collapseDashRuns, if_pos hx] at h
        rcases ih h with h1 | ⟨h1, h2⟩
        · exact Or.inl h1
        · exact Or.inr ⟨List.mem_cons_of_mem _ h1, h2⟩
      | false =>
        rw [collapseDashRuns, if_pos hx] at h
        rcases List.mem_cons.mp h with h1 | h1
        · exact Or.inl h1
        · rcases ih h1 with h2 | ⟨h2, h3⟩
          · exact Or.inl h2
          · exact Or.inr ⟨List.mem_cons_of_mem _ h2, h3⟩
    · rw [collapseDashRuns, if_neg hx] at h
      rcases List.mem_cons.mp h with h1 | h1
      · subst h1
        exact Or.inr ⟨List.mem_cons_self _ _, by simpa using hx⟩
      · rcases ih h1 with h2 | ⟨h2, h3⟩
        · exact Or.inl h2
        · exact Or.inr ⟨List.mem_cons_of_mem _ h2, h3⟩

theorem collapseDashRuns_noDoubleDash (b : Bool) (l : List Char) :
    hasDoubleDash (collapseDashRuns b l) = false := by
  induction l generalizing b with
  | nil => simp [collapseDashRuns, hasDoubleDash]
  | cons x rest ih =>
    by_cases hx : isDashSpace x
    · cases b with
      | true =>
        rw [collapseDashRuns, if_pos hx]
        exact ih true
      | false =>
        rw [collapseDashRuns, if_pos hx]
        cases hout : collapseDashRuns true rest with
        | nil => simp [hasDoubleDash]
        | cons c2 t =>
          have hc2 : isDashSpace c2 = false := collapseDashRuns_head_true hout
          have hc2' : ¬(c2 = '-') := by
            intro hh
            subst hh
            simp [isDashSpace] at hc2
          have := ih true
          rw [hout] at this
          simp [hasDoubleDash, this, hc2']
    · rw [collapseDashRuns, if_neg hx]
      have hx' : ¬(x = '-') := by
        intro hh
        subst hh
        simp [isDashSpace] at hx
      cases hout : collapseDashRuns false rest with
      | nil => simp [hasDoubleDash]
      | cons c2 t =>
        have := ih false
        rw [hout] at this
        simp [hasDoubleDash, this, hx']

theorem exceptBind_ok {ε α β : Type} (a : α) (f : α → Except ε β) :
    (Except.ok a >>= f) = f a := rfl

theorem exceptBind_error {ε α β : Type} (e : ε) (f : α → Except ε β) :
    ((Except.error e : Except ε α) >>= f) = Except.error e := rfl

theorem exceptPure_eq {ε α : Type} (a : α) :
    (pure a : Except ε α) = Except.ok a := rfl

theorem exceptMap_ok {ε α β : Type} (f : α → β) (a : α) :
    Except.map f (Except.ok a : Except ε α) = Except.ok (f a) := rfl

theorem exceptMap_error {ε α β : Type} (f : α → β) (e : ε) :
    Except.map f (Except.error e : Except ε α) = Except.error e := rfl

theorem processEntries_skip (flag : Bool) (idx : Nat) (e : Entry)
    (rest : List Entry)
    (h : nodeConfigToV2rayConfig e.nodeType e.config = Except.ok none) :
    processEntries flag idx (e :: rest) =
      Except.map (fun a => RunAcc.mk a.files (a.numSkipped + 1))
        (processEntries flag idx rest) := by
  cases hr : processEntries flag idx rest with
  | error err =>
    simp [processEntries, h, hr, exceptBind_ok, exceptBind_error, Except.map]
  | ok acc =>
    simp [processEntries, h, hr, exceptBind_ok, Except.map]

theorem processEntries_files_indexed (flag : Bool) (entries : List Entry) :
    ∀ (idx : Nat) (acc : RunAcc),
      processEntries flag idx entries = Except.ok acc →
      ∀ i (hi : i < acc.files.length),
        ∃ t, acc.files.get ⟨i, hi⟩ = format03 (idx + i) ++ "-" ++ t := by
  induction entries with
  | nil =>
    intro idx acc h i hi
    rw [processEntries] at h
    cases h
    simp at hi
  | cons e rest ih =>
    intro idx acc h i hi
    rw [processEntries] at h
    cases hc : nodeConfigToV2rayConfig e.nodeType e.config with
    | error err =>
      rw [hc] at h
      exact Except.noConfusion h
    | ok cfgOpt =>
      rw [hc, exceptBind_ok] at h
      cases cfgOpt with
      | none =>
        cases hr : processEntries flag idx rest with
        | error err =>
          rw [hr] at h
          exact Except.noConfusion h
        | ok acc' =>
          rw [hr, exceptBind_ok] at h
          cases h
          exact ih idx acc' hr i hi
      | some cfg =>
        cases hd : e.desc with
        | int n =>
          rw [hd] at h
          exact Except.noConfusion h
        | str d =>
          rw [hd] at h
          cases flag with
          | false =>
            simp only [Bool.false_eq_true, if_false] at h
            cases hr : processEntries false (idx + 1) rest with
            | error err =>
              rw [hr] at h
              exact Except.noConfusion h
            | ok acc' =>
              rw [hr, exceptBind_ok] at h
              cases h
              cases i with
              | zero =>
                refine ⟨strToFileName d ++ ".json", ?_⟩
                show format03 idx ++ "-" ++ strToFileName d ++ ".json" =
                  format03 (idx + 0) ++ "-" ++ (strToFileName d ++ ".json")
                simp [strAppend_assoc]
              | succ j =>
                have hj : j < acc'.files.length := by
                  simp [List.length_cons] at hi
                  omega
                obtain ⟨t, ht⟩ := ih (idx + 1) acc' hr j hj
                refine ⟨t, ?_⟩
                show acc'.files.get ⟨j, hj⟩ = format03 (idx + (j + 1)) ++ "-" ++ t
                have harith : idx + (j + 1) = (idx + 1) + j := by omega
                rw [harith]
                exact ht
          | true =>
            simp only [eq_self_iff_true, if_true] at h
            cases ho : overrideServerWithTlsName cfg with
            | error err =>
              rw [ho] at h
              exact Except.noConfusion h
            | ok ovOpt =>
              rw [ho, exceptBind_ok] at h
              cases ovOpt with
              | none =>
                cases hr : processEntries true (idx + 1) rest with
                | error err =>
                  rw [hr] at h
                  exact Except.noConfusion h
                | ok acc' =>
                  rw [hr, exceptBind_ok] at h
                  cases h
                  cases i with
                  | zero =>
                    refine ⟨strToFileName d ++ ".json", ?_⟩
                    show format03 idx ++ "-" ++ strToFileName d ++ ".json" =
                      format03 (idx + 0) ++ "-" ++ (strToFileName d ++ ".json")
                    simp [strAppend_assoc]
                  | succ j =>
                    have hj : j < acc'.files.length := by
                      simp [List.length_cons] at hi
                      omega
                    obtain ⟨t, ht⟩ := ih (idx + 1) acc' hr j hj
                    refine ⟨t, ?_⟩
                    show acc'.files.get ⟨j, hj⟩ =
                      format03 (idx + (j + 1)) ++ "-" ++ t
                    have harith : idx + (j + 1) = (idx + 1) + j := by omega
                    rw [harith]
                    exact ht
              | some ov =>
                cases hr : processEntries true (idx + 2) rest with
                | error err =>
                  rw [hr] at h
                  exact Except.noConfusion h
                | ok acc' =>
                  rw [hr, exceptBind_ok] at h
                  cases h
                  cases i with
                  | zero =>
                    refine ⟨strToFileName d ++ ".json", ?_⟩
                    show format03 idx ++ "-" ++ strToFileName d ++ ".json" =
                      format03 (idx + 0) ++ "-" ++ (strToFileName d ++ ".json")
                    simp [strAppend_assoc]
                  | succ j =>
                    cases j with
                    | zero =>
                      refine ⟨strToFileName d ++ "-tlsServ.json", ?_⟩
                      show format03 (idx + 1) ++ "-" ++ strToFileName d ++
                          "-tlsServ.json" =
                        format03 (idx + 1) ++ "-" ++
                          (strToFileName d ++ "-tlsServ.json")
                      simp [strAppend_assoc]
                    | succ j' =>
                      have hj : j' < acc'.files.length := by
                        simp [List.length_cons] at hi
                        omega
                      obtain ⟨t, ht⟩ := ih (idx + 2) acc' hr j' hj
                      refine ⟨t, ?_⟩
                      show acc'.files.get ⟨j', hj⟩ =
                        format03 (idx + (j' + 1 + 1)) ++ "-" ++ t
                      have harith : idx + (j' + 1 + 1) = (idx + 2) + j' := by
                        omega
                      rw [harith]
                      exact ht

theorem isPyWord_ascii {c : Char} (h : isPyWord c = true)
    (hlt : c.toNat < 128) :
    ('A' ≤ c ∧ c ≤ 'Z') ∨ ('a' ≤ c ∧ c ≤ 'z') ∨ ('0' ≤ c ∧ c ≤ '9') ∨
    c = '_' := by
  simp [isPyWord, isAsciiDigit, isLatin1Letter] at h
  rcases h with (((h | h) | h) | h) | h
  · exact Or.inl h
  · exact Or.inr (Or.inl h)
  · exact Or.inr (Or.inr (Or.inl h))
  · exact Or.inr (Or.inr (Or.inr h))
  · exfalso
    rcases h with ((h | h) | h) | h <;> omega

/-! ## Claim theorems -/

/-- C4, counterexample: the Identifier Sanitizer does not restrict its
output to `[A-Za-z0-9_ -]` on every input.  Python's `\w` is Unicode-aware,
so the non-ASCII word character `é` passes both substitutions untouched and
appears in the output, outside the claimed ASCII set. -/
theorem c4_sanitizer_ascii_counterexample :
    strToFileName "é" = "é" ∧
    ¬ (∀ c ∈ (strToFileName "é").data,
        ('A' ≤ c ∧ c ≤ 'Z') ∨ ('a' ≤ c ∧ c ≤ 'z') ∨ ('0' ≤ c ∧ c ≤ '9') ∨
        c = '_' ∨ c = ' ' ∨ c = '-') := by
  constructor
  · decide
  · decide

/-- C4, amended: for every input the Identifier Sanitizer is total, its
output never contains two consecutive hyphens, every output character is a
word character (in Python's Unicode sense) or a hyphen, and when the input
is pure ASCII the output lies in `[A-Za-z0-9_-]` (a subset of the claimed
set); the empty input yields the empty output. -/
theorem c4_amended_sanitizer_charset (s : String) :
    hasDoubleDash (strToFileName s).data = false ∧
    (∀ c ∈ (strToFileName s).data, isPyWord c = true ∨ c = '-') ∧
    ((∀ c ∈ s.data, c.toNat < 128) →
      ∀ c ∈ (strToFileName s).data,
        ('A' ≤ c ∧ c ≤ 'Z') ∨ ('a' ≤ c ∧ c ≤ 'z') ∨ ('0' ≤ c ∧ c ≤ '9') ∨
        c = '_' ∨ c = '-') ∧
    strToFileName "" = "" := by
  have hword : ∀ c ∈ (strToFileName s).data,
      (isPyWord c = true ∧ c ∈ s.data) ∨ c = '-' := by
    intro c hc
    rcases collapseDashRuns_mem hc with h1 | ⟨h1, h2⟩
    · exact Or.inr h1
    · left
      rcases List.mem_filter.mp h1 with ⟨hm, hkeep⟩
      simp [isDashSpace] at h2
      obtain ⟨h2a, h2b⟩ := h2
      simp [h2a, h2b] at hkeep
      exact ⟨hkeep, hm⟩
  refine ⟨collapseDashRuns_noDoubleDash false _, ?_, ?_, rfl⟩
  · intro c hc
    rcases hword c hc with ⟨h1, _⟩ | h1
    · exact Or.inl h1
    · exact Or.inr h1
  · intro hascii c hc
    rcases hword c hc with ⟨h1, hm⟩ | h1
    · rcases isPyWord_ascii h1 (hascii c hm) with h | h | h | h
      · exact Or.inl h
      · exact Or.inr (Or.inl h)
      · exact Or.inr (Or.inr (Or.inl h))
      · exact Or.inr (Or.inr (Or.inr (Or.inl h)))
    · exact Or.inr (Or.inr (Or.inr (Or.inr h1)))

/-- Witness for C4's amended theorem at the concrete description
`"My Node -- 1!"`. -/
theorem c4_amended_witness :
    hasDoubleDash (strToFileName "My Node -- 1!").data = false ∧
    (∀ c ∈ (strToFileName "My Node -- 1!").data,
      ('A' ≤ c ∧ c ≤ 'Z') ∨ ('a' ≤ c ∧ c ≤ 'z') ∨ ('0' ≤ c ∧ c ≤ '9') ∨
      c = '_' ∨ c = '-') :=
  ⟨(c4_amended_sanitizer_charset "My Node -- 1!").1,
   (c4_amended_sanitizer_charset "My Node -- 1!").2.2.1 (by decide)⟩

/-- C3, counterexample: for VLess/Trojan records the security mode is not
normalized and `none` is not recognized: with network `tcp` and security
`""` (or `"none"`) `genVlessStreamSettings` yields the unsupported signal
(`ok none`, the source's `return None`) instead of a streamSettings block
with security `none`. -/
theorem c3_security_normalization_counterexample :
    genVlessStreamSettings
      [("q_type", PyVal.str "tcp"), ("q_security", PyVal.str "")] =
      Except.ok none ∧
    genVlessStreamSettings
      [("q_type", PyVal.str "tcp"), ("q_security", PyVal.str "none")] =
      Except.ok none := by
  constructor
  · decide
  · decide

/-- C3, amended: the empty-string-to-`none` normalization and the
recognition of `none` hold for VMess records only; for VLess/Trojan records
the security mode is used unnormalized and every value other than `tls` and
`xtls` (in particular `""` and `none`) makes streamSettings synthesis fail
as unsupported. -/
theorem c3_amended_security_normalization :
    (∀ nc, lookupNC nc "net" = some (PyVal.str "tcp") →
      lookupNC nc "tls" = some (PyVal.str "") →
      genVmessStreamSettings nc =
        Except.ok (some ⟨PyVal.str "tcp", PyVal.str "none", none, none, none⟩)) ∧
    (∀ nc, lookupNC nc "net" = some (PyVal.str "tcp") →
      lookupNC nc "tls" = some (PyVal.str "none") →
      genVmessStreamSettings nc =
        Except.ok (some ⟨PyVal.str "tcp", PyVal.str "none", none, none, none⟩)) ∧
    (∀ nc s t, lookupNC nc "q_type" = some t →
      lookupNC nc "q_security" = some (PyVal.str s) →
      s ≠ "tls" → s ≠ "xtls" →
      genVlessStreamSettings nc = Except.ok none) := by
  refine ⟨?_, ?_, ?_⟩
  · intro nc h1 h2
    simp [genVmessStreamSettings, getItem_ok h1, getItem_ok h2, exceptBind_ok,
      exceptPure_eq]
  · intro nc h1 h2
    simp [genVmessStreamSettings, getItem_ok h1, getItem_ok h2, exceptBind_ok,
      exceptPure_eq]
  · intro nc s t h1 h2 hs1 hs2
    simp [genVlessStreamSettings, getItem_ok h1, getItem_ok h2, exceptBind_ok,
      exceptPure_eq, hs1, hs2]

/-- Witness for C3's amended theorem on concrete records. -/
theorem c3_amended_witness :
    genVmessStreamSettings [("net", PyVal.str "tcp"), ("tls", PyVal.str "")] =
      Except.ok (some ⟨PyVal.str "tcp", PyVal.str "none", none, none, none⟩) ∧
    genVlessStreamSettings
      [("q_type", PyVal.str "tcp"), ("q_security", PyVal.str "none")] =
      Except.ok none :=
  ⟨c3_amended_security_normalization.1 _ (by decide) (by decide),
   c3_amended_security_normalization.2.2 _ "none" (PyVal.str "tcp")
     (by decide) (by decide) (by decide) (by decide)⟩

/-- C1, counterexample: a decode failure of a single endpoint line aborts
the whole feed decode.  The first line's vless authority does not match the
`<uuid>@<host>:<port>` pattern, so the source subscripts `None` and the
`TypeError` propagates: no entry list is produced and the second line is
never decoded, contrary to the claim that only that entry is marked
unsupported and the remaining lines are still decoded. -/
theorem c1_line_failure_aborts_counterexample :
    parseSubscrLines ["vless://nomatch", "ss://keep"] =
      Except.error PyErr.typeError := by
  decide

/-- C1, amended: an exception in one line's endpoint decode aborts the whole
feed decoding (every line before it must have decoded successfully for the
traversal to reach it, and nothing after it is decoded); only lines whose
scheme is none of vmess/vless/trojan are tolerated, becoming
`(scheme, "<unknown>", no record)` entries with decoding continuing. -/
theorem c1_amended_line_failure_aborts :
    (∀ (pre : List String) (line : String) (post : List String) (e : PyErr),
      (∀ l ∈ pre, ∃ v, parseLine l = Except.ok v) →
      parseLine line = Except.error e →
      parseSubscrLines (pre ++ line :: post) = Except.error e) ∧
    (∀ l, (urlparse l).scheme ≠ "vmess" → (urlparse l).scheme ≠ "vless" →
      (urlparse l).scheme ≠ "trojan" →
      parseLine l =
        Except.ok ⟨(urlparse l).scheme, PyVal.str "<unknown>", none⟩) := by
  constructor
  · intro pre
    induction pre with
    | nil =>
      intro line post e hpre herr
      simp [parseSubscrLines, herr, exceptBind_error]
    | cons l pre ih =>
      intro line post e hpre herr
      obtain ⟨v, hv⟩ := hpre l (List.mem_cons_self _ _)
      have hrest := ih line post e
        (fun l' hl' => hpre l' (List.mem_cons_of_mem _ hl')) herr
      simp [List.cons_append, parseSubscrLines, hv, exceptBind_ok, hrest,
        exceptBind_error]
  · intro l h1 h2 h3
    simp [parseLine, h1, h2, h3]

/-- Witness for C1's amended theorem: a well-formed unknown-scheme line
before the malformed vless line still leads to an abort, and the
unknown-scheme line alone decodes to an unsupported entry. -/
theorem c1_amended_witness :
    parseSubscrLines ["ss://keep", "vless://nomatch"] =
      Except.error PyErr.typeError ∧
    parseLine "ss://keep" =
      Except.ok ⟨(urlparse "ss://keep").scheme, PyVal.str "<unknown>", none⟩ := by
  constructor
  · exact c1_amended_line_failure_aborts.1 ["ss://keep"] "vless://nomatch" []
      PyErr.typeError
      (by
        intro l hl
        simp at hl
        subst hl
        exact ⟨⟨"ss", PyVal.str "<unknown>", none⟩, by decide⟩)
      (by decide)
  · exact c1_amended_line_failure_aborts.2 "ss://keep" (by decide) (by decide)
      (by decide)

/-- C2, counterexample: a decoded vless record with valid streamSettings
fields but no `encryption` query field does not fail as a skipped
`SynthesisUnsupported` entry: the `q_encryption` lookup raises `KeyError`,
no document is produced, and the run aborts (the following entry is never
processed and nothing is counted as skipped), contrary to the claim that
the run continues over the remaining entries. -/
theorem c2_missing_field_fatal_counterexample :
    nodeConfigToV2rayConfig "vless"
      (some [("n_uuid", PyVal.str "aaaa"), ("n_host", PyVal.str "h"),
        ("n_port", PyVal.int 443), ("q_type", PyVal.str "tcp"),
        ("q_security", PyVal.str "tls"), ("q_host", PyVal.str "srv")]) =
      Except.error (PyErr.keyError "q_encryption") ∧
    processEntries false 0
      [⟨"vless", PyVal.str "A",
        some [("n_uuid", PyVal.str "aaaa"), ("n_host", PyVal.str "h"),
          ("n_port", PyVal.int 443), ("q_type", PyVal.str "tcp"),
          ("q_security", PyVal.str "tls"), ("q_host", PyVal.str "srv")]⟩,
       ⟨"ss", PyVal.str "<unknown>", none⟩] =
      Except.error (PyErr.keyError "q_encryption") := by
  constructor
  · decide
  · decide

/-- C2, amended: a record missing a required field is not skipped; the
lookup raises an uncaught `KeyError` that aborts the entire run (shown here
for the network-type field `q_type` of a vless/trojan record).  Only
unknown node types and unrecognized network/security values produce the
non-fatal unsupported signal. -/
theorem c2_amended_missing_field_aborts (r : NodeConfig)
    (h : lookupNC r "q_type" = none) :
    genVlessStreamSettings r = Except.error (PyErr.keyError "q_type") ∧
    nodeConfigToV2rayConfig "vless" (some r) =
      Except.error (PyErr.keyError "q_type") ∧
    nodeConfigToV2rayConfig "trojan" (some r) =
      Except.error (PyErr.keyError "q_type") ∧
    ∀ flag idx d rest,
      processEntries flag idx (⟨"vless", d, some r⟩ :: rest) =
        Except.error (PyErr.keyError "q_type") := by
  have hg : genVlessStreamSettings r = Except.error (PyErr.keyError "q_type") := by
    simp [genVlessStreamSettings, getItem_err h, exceptBind_error]
  have hv : nodeConfigToV2rayConfig "vless" (some r) =
      Except.error (PyErr.keyError "q_type") := by
    simp [nodeConfigToV2rayConfig, hg, exceptBind_error]
  have ht : nodeConfigToV2rayConfig "trojan" (some r) =
      Except.error (PyErr.keyError "q_type") := by
    simp [nodeConfigToV2rayConfig, hg, exceptBind_error]
  refine ⟨hg, hv, ht, ?_⟩
  intro flag idx d rest
  simp [processEntries, hv, exceptBind_error]

/-- Witness for C2's amended theorem at a concrete record without
`q_type`. -/
theorem c2_amended_witness :
    nodeConfigToV2rayConfig "vless" (some [("n_uuid", PyVal.str "u")]) =
      Except.error (PyErr.keyError "q_type") ∧
    processEntries false 0
      [⟨"vless", PyVal.str "A", some [("n_uuid", PyVal.str "u")]⟩] =
      Except.error (PyErr.keyError "q_type") :=
  ⟨(c2_amended_missing_field_aborts _ (by decide)).2.1,
   (c2_amended_missing_field_aborts _ (by decide)).2.2.2 false 0
     (PyVal.str "A") []⟩

theorem stringList_contains_iff (l : List String) (s : String) :
    l.contains s = true ↔ s ∈ l := by
  induction l with
  | nil => simp [List.contains, List.elem]
  | cons a t ih =>
    by_cases h : s = a
    · subst h
      simp [List.contains, List.elem]
    · have hb : (s == a) = false := by simp [h]
      simp [List.contains, List.elem, hb, h]

/-- C5: on a synthesized document whose streamSettings security is `tls`
(resp. `xtls`) with a non-empty server name, the TLS-Override Transform
returns a new document equal to the input except that the connection
settings address is replaced by that server name; with an empty server
name, or with security neither `tls` nor `xtls`, it returns absent
(`ok none`), not an error.  The transform is a pure function of the
document, so the input value is unchanged by construction (the source
enforces this with `copy.deepcopy`). -/
theorem c5_tls_override_transform :
    (∀ (d : ConfigDocument) (n : String),
      ((d.streamSettings.security = PyVal.str "tls" ∧
        d.streamSettings.tlsSettings = some (PyVal.str n)) ∨
       (d.streamSettings.security = PyVal.str "xtls" ∧
        d.streamSettings.xtlsSettings = some (PyVal.str n))) →
      (n ≠ "" →
        overrideServerWithTlsName d =
          Except.ok (some { d with
            settings := d.settings.withAddress (PyVal.str n) })) ∧
      (n = "" → overrideServerWithTlsName d = Except.ok none)) ∧
    (∀ d : ConfigDocument, d.streamSettings.security ≠ PyVal.str "tls" →
      d.streamSettings.security ≠ PyVal.str "xtls" →
      overrideServerWithTlsName d = Except.ok none) := by
  constructor
  · intro d n hcase
    rcases hcase with ⟨hsec, hset⟩ | ⟨hsec, hset⟩
    · constructor
      · intro hne
        simp [overrideServerWithTlsName, hsec, hset, exceptBind_ok,
          exceptPure_eq, truthy, hne]
      · intro heq
        subst heq
        simp [overrideServerWithTlsName, hsec, hset, exceptBind_ok,
          exceptPure_eq, truthy]
    · constructor
      · intro hne
        simp [overrideServerWithTlsName, hsec, hset, exceptBind_ok,
          exceptPure_eq, truthy, hne]
      · intro heq
        subst heq
        simp [overrideServerWithTlsName, hsec, hset, exceptBind_ok,
          exceptPure_eq, truthy]
  · intro d h1 h2
    simp [overrideServerWithTlsName, h1, h2, exceptBind_ok, exceptPure_eq,
      truthy]

/-- Witness for C5 on concrete documents: a `tls` document with server name
`srv` gets its vnext address overridden, and a `none`-security document
produces no override. -/
theorem c5_witness :
    overrideServerWithTlsName
      ⟨"vless", OutSettings.vnext (PyVal.str "h") (PyVal.int 443)
        (UserObj.vless (PyVal.str "u") (PyVal.str "none") (PyVal.str "xf")),
       ⟨PyVal.str "tcp", PyVal.str "tls", some (PyVal.str "srv"), none,
        none⟩⟩ =
      Except.ok (some ⟨"vless",
        OutSettings.vnext (PyVal.str "srv") (PyVal.int 443)
          (UserObj.vless (PyVal.str "u") (PyVal.str "none") (PyVal.str "xf")),
        ⟨PyVal.str "tcp", PyVal.str "tls", some (PyVal.str "srv"), none,
         none⟩⟩) ∧
    overrideServerWithTlsName
      ⟨"vmess", OutSettings.vnext (PyVal.str "h") (PyVal.int 443)
        (UserObj.vmess (PyVal.str "u") (PyVal.int 0)),
       ⟨PyVal.str "tcp", PyVal.str "none", none, none, none⟩⟩ =
      Except.ok none := by
  constructor
  · have h := (c5_tls_override_transform.1
      ⟨"vless", OutSettings.vnext (PyVal.str "h") (PyVal.int 443)
        (UserObj.vless (PyVal.str "u") (PyVal.str "none") (PyVal.str "xf")),
       ⟨PyVal.str "tcp", PyVal.str "tls", some (PyVal.str "srv"), none,
        none⟩⟩ "srv" (Or.inl ⟨rfl, rfl⟩)).1 (by decide)
    exact h.trans (by decide)
  · exact c5_tls_override_transform.2 _ (by decide) (by decide)

/-- C6: the prune pass of a successful run deletes exactly the directory
entries that match the generated-name pattern (`^\d\d\d-.*\.json$`) and are
not among the file names this run produced; in particular a file whose name
does not match the pattern is never deleted. -/
theorem c6_prune_pattern_correctness :
    ∀ (txt : String) (flag : Bool) (listing : List String)
      (res : MainResult),
      mainRun txt flag listing = Except.ok res →
      ∀ f, f ∈ res.deleted ↔
        (f ∈ listing ∧ cfgNameMatch f = true ∧ ¬ f ∈ res.files) := by
  intro txt flag listing res h f
  cases hp : parseV2rayNSubscrText txt with
  | error e =>
    simp only [mainRun, hp, exceptBind_error] at h
    exact Except.noConfusion h
  | ok entries =>
    simp only [mainRun, hp, exceptBind_ok] at h
    cases hq : processEntries flag 0 entries with
    | error e =>
      rw [hq, exceptBind_error] at h
      exact Except.noConfusion h
    | ok acc =>
      rw [hq, exceptBind_ok] at h
      cases h
      simp only [pruneDeleted, List.mem_filter, Bool.and_eq_true,
        Bool.not_eq_true', stringList_contains_iff]
      constructor
      · rintro ⟨h1, h2, h3⟩
        exact ⟨h1, h3, by simpa using h2⟩
      · rintro ⟨h1, h2, h3⟩
        exact ⟨h1, by simpa using h3, h2⟩

/-- Witness for C6 on a concrete run: the stale generated file
`001-Other.json` is deleted, the unrelated `keep.txt` is not. -/
theorem c6_witness :
    ("001-Other.json" ∈ (["001-Other.json"] : List String)) ∧
    ¬ ("keep.txt" ∈ (["001-Other.json"] : List String)) := by
  have h := c6_prune_pattern_correctness
    "ss://x\nvless://aaaa@h:443?type=tcp&security=tls&host=srv&encryption=none&flow=xf#Node One"
    true ["000-Node-One.json", "001-Other.json", "keep.txt"]
    ⟨["000-Node-One.json", "001-Node-One-tlsServ.json"], 1,
     ["001-Other.json"]⟩
    (by decide)
  constructor
  · exact (h "001-Other.json").mpr ⟨by decide, by decide, by decide⟩
  · intro hmem
    exact absurd ((h "keep.txt").mp hmem).2.1 (by decide)

/-- C7: in every successful run, the i-th produced file (counting from 0,
primary and `-tlsServ` variants alike, in production order) is named with
index i zero-padded via `%03d`: skipped entries consume no index and the
override file consumes the index following its primary file. -/
theorem c7_file_index_positional :
    ∀ (txt : String) (flag : Bool) (listing : List String)
      (res : MainResult),
      mainRun txt flag listing = Except.ok res →
      ∀ i (hi : i < res.files.length),
        ∃ t, res.files.get ⟨i, hi⟩ = format03 i ++ "-" ++ t := by
  intro txt flag listing res h i hi
  cases hp : parseV2rayNSubscrText txt with
  | error e =>
    simp only [mainRun, hp, exceptBind_error] at h
    exact Except.noConfusion h
  | ok entries =>
    simp only [mainRun, hp, exceptBind_ok] at h
    cases hq : processEntries flag 0 entries with
    | error e =>
      rw [hq, exceptBind_error] at h
      exact Except.noConfusion h
    | ok acc =>
      rw [hq, exceptBind_ok] at h
      cases h
      have hidx := processEntries_files_indexed flag entries 0 acc hq i hi
      simpa [Nat.zero_add] using hidx

/-- Witness for C7 on a concrete run with one skipped entry and an override
sibling: the second produced file carries index 1. -/
theorem c7_witness :
    ∃ t, (["000-Node-One.json", "001-Node-One-tlsServ.json"] :
        List String).get ⟨1, by decide⟩ = format03 1 ++ "-" ++ t :=
  c7_file_index_positional
    "ss://x\nvless://aaaa@h:443?type=tcp&security=tls&host=srv&encryption=none&flow=xf#Node One"
    true []
    ⟨["000-Node-One.json", "001-Node-One-tlsServ.json"], 1, []⟩
    (by decide) 1 (by decide)

/-- C8: an endpoint record whose network type is neither `tcp` nor `ws`
(e.g. `grpc`) never yields a streamSettings block: whenever the generator
returns at all (rather than raising on a missing security-stage field), it
returns the unsupported signal, whole-document synthesis returns no
document, and in the main loop the entry is counted as skipped, produces no
file, and processing of the remaining entries continues unchanged.  Both
record shapes are covered: vless/trojan (`q_type`) and vmess (`net`). -/
theorem c8_unrecognized_network_skipped (v : String) (h1 : v ≠ "tcp")
    (h2 : v ≠ "ws") :
    (∀ (r : NodeConfig) (res : Option StreamSettings),
      lookupNC r "q_type" = some (PyVal.str v) →
      genVlessStreamSettings r = Except.ok res →
      res = none ∧
      nodeConfigToV2rayConfig "vless" (some r) = Except.ok none ∧
      nodeConfigToV2rayConfig "trojan" (some r) = Except.ok none ∧
      ∀ flag idx d rest,
        processEntries flag idx
            ({ nodeType := "vless", desc := d, config := some r } :: rest) =
          Except.map (fun a => RunAcc.mk a.files (a.numSkipped + 1))
            (processEntries flag idx rest)) ∧
    (∀ (nc : NodeConfig) (res : Option StreamSettings),
      lookupNC nc "net" = some (PyVal.str v) →
      genVmessStreamSettings nc = Except.ok res →
      res = none ∧
      nodeConfigToV2rayConfig "vmess" (some nc) = Except.ok none ∧
      ∀ flag idx d rest,
        processEntries flag idx
            ({ nodeType := "vmess", desc := d, config := some nc } :: rest) =
          Except.map (fun a => RunAcc.mk a.files (a.numSkipped + 1))
            (processEntries flag idx rest)) := by
  constructor
  · intro r res hty hok
    have hgen : genVlessStreamSettings r = Except.ok none := by
      cases hsec : lookupNC r "q_security" with
      | none =>
        exfalso
        have herr : genVlessStreamSettings r =
            Except.error (PyErr.keyError "q_security") := by
          simp [genVlessStreamSettings, getItem_ok hty, getItem_err hsec,
            exceptBind_ok, exceptBind_error]
        rw [herr] at hok
        exact Except.noConfusion hok
      | some sec =>
        by_cases ht : sec = PyVal.str "tls"
        · subst ht
          cases hh : lookupNC r "q_host" with
          | none =>
            exfalso
            have herr : genVlessStreamSettings r =
                Except.error (PyErr.keyError "q_host") := by
              cases hsni : lookupNC r "q_sni" with
              | none =>
                simp [genVlessStreamSettings, getItem_ok hty,
                  getItem_ok hsec, containsKey, hsni, getItem_err hh,
                  exceptBind_ok, exceptBind_error, exceptPure_eq]
              | some sni =>
                simp [genVlessStreamSettings, getItem_ok hty,
                  getItem_ok hsec, containsKey, hsni, getItem_err hh,
                  exceptBind_ok, exceptBind_error, exceptPure_eq]
            rw [herr] at hok
            exact Except.noConfusion hok
          | some hv =>
            cases hsni : lookupNC r "q_sni" with
            | none =>
              simp [genVlessStreamSettings, getItem_ok hty, getItem_ok hsec,
                containsKey, hsni, getItem_ok hh, h1, h2, exceptBind_ok,
                exceptPure_eq]
            | some sni =>
              simp [genVlessStreamSettings, getItem_ok hty, getItem_ok hsec,
                containsKey, hsni, getItem_ok hh, h1, h2, exceptBind_ok,
                exceptPure_eq]
        · by_cases hx : sec = PyVal.str "xtls"
          · subst hx
            cases hh : lookupNC r "q_host" with
            | none =>
              exfalso
              have herr : genVlessStreamSettings r =
                  Except.error (PyErr.keyError "q_host") := by
                cases hsni : lookupNC r "q_sni" with
                | none =>
                  simp [genVlessStreamSettings, getItem_ok hty,
                    getItem_ok hsec, containsKey, hsni, getItem_err hh,
                    exceptBind_ok, exceptBind_error, exceptPure_eq]
                | some sni =>
                  simp [genVlessStreamSettings, getItem_ok hty,
                    getItem_ok hsec, containsKey, hsni, getItem_err hh,
                    exceptBind_ok, exceptBind_error, exceptPure_eq]
              rw [herr] at hok
              exact Except.noConfusion hok
            | some hv =>
              cases hsni : lookupNC r "q_sni" with
              | none =>
                simp [genVlessStreamSettings, getItem_ok hty,
                  getItem_ok hsec, containsKey, hsni, getItem_ok hh, h1, h2,
                  exceptBind_ok, exceptPure_eq]
              | some sni =>
                simp [genVlessStreamSettings, getItem_ok hty,
                  getItem_ok hsec, containsKey, hsni, getItem_ok hh, h1, h2,
                  exceptBind_ok, exceptPure_eq]
          · simp [genVlessStreamSettings, getItem_ok hty, getItem_ok hsec,
              ht, hx, exceptBind_ok, exceptPure_eq]
    have hres : res = none := by
      rw [hgen] at hok
      cases hok
      rfl
    have hv : nodeConfigToV2rayConfig "vless" (some r) = Except.ok none := by
      simp [nodeConfigToV2rayConfig, hgen, exceptBind_ok]
    have htj : nodeConfigToV2rayConfig "trojan" (some r) = Except.ok none := by
      simp [nodeConfigToV2rayConfig, hgen, exceptBind_ok]
    refine ⟨hres, hv, htj, ?_⟩
    intro flag idx d rest
    exact processEntries_skip flag idx
      { nodeType := "vless", desc := d, config := some r } rest hv
  · intro nc res hty hok
    have hgen : genVmessStreamSettings nc = Except.ok none := by
      cases htls : lookupNC nc "tls" with
      | none =>
        exfalso
        have herr : genVmessStreamSettings nc =
            Except.error (PyErr.keyError "tls") := by
          simp [genVmessStreamSettings, getItem_ok hty, getItem_err htls,
            exceptBind_ok, exceptBind_error]
        rw [herr] at hok
        exact Except.noConfusion hok
      | some tls0 =>
        by_cases h0 : tls0 = PyVal.str ""
        · subst h0
          simp [genVmessStreamSettings, getItem_ok hty, getItem_ok htls,
            h1, h2, exceptBind_ok, exceptPure_eq]
        · by_cases htl : tls0 = PyVal.str "tls"
          · subst htl
            cases hh : lookupNC nc "host" with
            | none =>
              exfalso
              have herr : genVmessStreamSettings nc =
                  Except.error (PyErr.keyError "host") := by
                simp [genVmessStreamSettings, getItem_ok hty,
                  getItem_ok htls, getItem_err hh, exceptBind_ok,
                  exceptBind_error, exceptPure_eq, exceptMap_error]
              rw [herr] at hok
              exact Except.noConfusion hok
            | some hv =>
              simp [genVmessStreamSettings, getItem_ok hty, getItem_ok htls,
                getItem_ok hh, h1, h2, exceptBind_ok, exceptPure_eq,
                exceptMap_ok]
          · by_cases hnn : tls0 = PyVal.str "none"
            · subst hnn
              simp [genVmessStreamSettings, getItem_ok hty, getItem_ok htls,
                h1, h2, exceptBind_ok, exceptPure_eq]
            · simp [genVmessStreamSettings, getItem_ok hty, getItem_ok htls,
                h0, htl, hnn, exceptBind_ok, exceptPure_eq]
    have hres : res = none := by
      rw [hgen] at hok
      cases hok
      rfl
    have hm : nodeConfigToV2rayConfig "vmess" (some nc) = Except.ok none := by
      simp [nodeConfigToV2rayConfig, hgen, exceptBind_ok]
    refine ⟨hres, hm, ?_⟩
    intro flag idx d rest
    exact processEntries_skip flag idx
      { nodeType := "vmess", desc := d, config := some nc } rest hm

/-- Witness for C8: a vless record with network `grpc` is synthesized to no
document and, as a loop entry, is counted skipped while producing no
file. -/
theorem c8_witness :
    nodeConfigToV2rayConfig "vless"
      (some [("q_type", PyVal.str "grpc"), ("q_security", PyVal.str "tls"),
        ("q_host", PyVal.str "srv")]) = Except.ok none ∧
    processEntries false 0
      [⟨"vless", PyVal.str "G", some [("q_type", PyVal.str "grpc"),
        ("q_security", PyVal.str "tls"), ("q_host", PyVal.str "srv")]⟩] =
      Except.map (fun a => RunAcc.mk a.files (a.numSkipped + 1))
        (processEntries false 0 []) := by
  have h := (c8_unrecognized_network_skipped "grpc" (by decide) (by decide)).1
    [("q_type", PyVal.str "grpc"), ("q_security", PyVal.str "tls"),
     ("q_host", PyVal.str "srv")] none (by decide) (by decide)
  exact ⟨h.2.1, h.2.2.2 false 0 (PyVal.str "G") []⟩

/-- C9: for a vless record with security `tls` or `xtls` in which both
`q_host` and `q_sni` are present and differ, synthesis still succeeds (the
mismatch only triggers a warning in the source) and the generated
document's TLS (resp. XTLS) server name is the `q_host` value, not the
`q_sni` value. -/
theorem c9_host_sni_mismatch_host_precedence
    (r : NodeConfig) (h s : String) (nh np nu qe qf : PyVal)
    (hhost : lookupNC r "q_host" = some (PyVal.str h))
    (hsni : lookupNC r "q_sni" = some (PyVal.str s))
    (_hne : h ≠ s)
    (hty : lookupNC r "q_type" = some (PyVal.str "tcp"))
    (hnh : lookupNC r "n_host" = some nh)
    (hnp : lookupNC r "n_port" = some np)
    (hnu : lookupNC r "n_uuid" = some nu)
    (hqe : lookupNC r "q_encryption" = some qe)
    (hqf : lookupNC r "q_flow" = some qf) :
    (lookupNC r "q_security" = some (PyVal.str "tls") →
      nodeConfigToV2rayConfig "vless" (some r) =
        Except.ok (some ⟨"vless",
          OutSettings.vnext nh np (UserObj.vless nu qe qf),
          ⟨PyVal.str "tcp", PyVal.str "tls", some (PyVal.str h), none,
           none⟩⟩)) ∧
    (lookupNC r "q_security" = some (PyVal.str "xtls") →
      nodeConfigToV2rayConfig "vless" (some r) =
        Except.ok (some ⟨"vless",
          OutSettings.vnext nh np (UserObj.vless nu qe qf),
          ⟨PyVal.str "tcp", PyVal.str "xtls", none, some (PyVal.str h),
           none⟩⟩)) := by
  constructor
  · intro hsec
    have hgen : genVlessStreamSettings r =
        Except.ok (some ⟨PyVal.str "tcp", PyVal.str "tls",
          some (PyVal.str h), none, none⟩) := by
      simp [genVlessStreamSettings, getItem_ok hty, getItem_ok hsec,
        containsKey, hsni, getItem_ok hhost, exceptBind_ok, exceptPure_eq]
    simp [nodeConfigToV2rayConfig, hgen, getItem_ok hnh, getItem_ok hnp,
      getItem_ok hnu, getItem_ok hqe, getItem_ok hqf, exceptBind_ok]
  · intro hsec
    have hgen : genVlessStreamSettings r =
        Except.ok (some ⟨PyVal.str "tcp", PyVal.str "xtls", none,
          some (PyVal.str h), none⟩) := by
      simp [genVlessStreamSettings, getItem_ok hty, getItem_ok hsec,
        containsKey, hsni, getItem_ok hhost, exceptBind_ok, exceptPure_eq]
    simp [nodeConfigToV2rayConfig, hgen, getItem_ok hnh, getItem_ok hnp,
      getItem_ok hnu, getItem_ok hqe, getItem_ok hqf, exceptBind_ok]

/-- Witness for C9 at a concrete record with `host = "a"`, `sni = "b"`. -/
theorem c9_witness :
    nodeConfigToV2rayConfig "vless"
      (some [("n_uuid", PyVal.str "u"), ("n_host", PyVal.str "1.2.3.4"),
        ("n_port", PyVal.int 443), ("q_type", PyVal.str "tcp"),
        ("q_security", PyVal.str "tls"), ("q_host", PyVal.str "a"),
        ("q_sni", PyVal.str "b"), ("q_encryption", PyVal.str "none"),
        ("q_flow", PyVal.str "xf")]) =
      Except.ok (some ⟨"vless",
        OutSettings.vnext (PyVal.str "1.2.3.4") (PyVal.int 443)
          (UserObj.vless (PyVal.str "u") (PyVal.str "none")
            (PyVal.str "xf")),
        ⟨PyVal.str "tcp", PyVal.str "tls", some (PyVal.str "a"), none,
         none⟩⟩) :=
  (c9_host_sni_mismatch_host_precedence _ "a" "b" _ _ _ _ _
    (by decide) (by decide) (by decide) (by decide) (by decide) (by decide)
    (by decide) (by decide) (by decide)).1 (by decide)

theorem takeWhile_all_append {p : Char → Bool} {xs : List Char} (y : Char)
    (ys : List Char) (hxs : ∀ c ∈ xs, p c = true) (hy : p y = false) :
    (xs ++ y :: ys).takeWhile p = xs ∧ (xs ++ y :: ys).dropWhile p = y :: ys := by
  induction xs with
  | nil => simp [List.takeWhile, List.dropWhile, hy]
  | cons a t ih =>
    have ha := hxs a (List.mem_cons_self _ _)
    obtain ⟨h1, h2⟩ := ih (fun c hc => hxs c (List.mem_cons_of_mem _ hc))
    simp [List.takeWhile, List.dropWhile, ha, h1, h2]

theorem splitChar_no_sep {sep : Char} {cs : List Char}
    (h : ∀ c ∈ cs, c ≠ sep) : splitChar sep cs = [cs] := by
  induction cs with
  | nil => rfl
  | cons c rest ih =>
    have hc := h c (List.mem_cons_self _ _)
    have ihr := ih (fun x hx => h x (List.mem_cons_of_mem _ hx))
    simp [splitChar, ihr, hc]

theorem splitFirst_no_sep_append {sep : Char} {xs ys : List Char}
    (h : ∀ c ∈ xs, c ≠ sep) :
    splitFirst sep (xs ++ sep :: ys) = (xs, some ys) := by
  induction xs with
  | nil => simp [splitFirst]
  | cons a t ih =>
    have ha := h a (List.mem_cons_self _ _)
    have ihr := ih (fun x hx => h x (List.mem_cons_of_mem _ hx))
    simp [splitFirst, ha, ihr]

theorem pctScan_lit : ∀ cs : List Char, (∀ c ∈ cs, c ≠ '%') →
    pctScan cs = cs.map Sum.inl := by
  intro cs
  induction cs with
  | nil => intro _; rfl
  | cons c rest ih =>
    intro h
    have hc : c ≠ '%' := h c (List.mem_cons_self _ _)
    have ihr := ih (fun x hx => h x (List.mem_cons_of_mem _ hx))
    have hstep : pctScan (c :: rest) = Sum.inl c :: pctScan rest := by
      cases rest with
      | nil => simp [pctScan, hc]
      | cons a t =>
        cases t with
        | nil => simp [pctScan, hc]
        | cons b t2 => simp [pctScan, hc]
    rw [hstep, ihr]
    rfl

theorem pctAssemble_lit : ∀ cs : List Char,
    pctAssemble [] (cs.map Sum.inl) = cs := by
  intro cs
  induction cs with
  | nil => rfl
  | cons c rest ih => simp [pctAssemble, ih, utf8Replace, utf8ReplaceAux]

theorem unquotePlus_lit {cs : List Char}
    (h : ∀ c ∈ cs, c ≠ '%' ∧ c ≠ '+') :
    unquotePlus (String.mk cs) = String.mk cs := by
  have hmap : cs.map (fun c => if c = '+' then ' ' else c) = cs := by
    induction cs with
    | nil => rfl
    | cons c rest ih =>
      have hc := (h c (List.mem_cons_self _ _)).2
      have ihr := ih (fun x hx => h x (List.mem_cons_of_mem _ hx))
      simp [hc, ihr]
  unfold unquotePlus
  rw [hmap, pctScan_lit cs (fun c hc => (h c hc).1), pctAssemble_lit]

/-- C10: a vless/trojan query-string key with an empty value (such as
`security=`) is kept by the Endpoint Decoder: the record binds `q_<key>` to
the empty string, so the Config Synthesizer sees an empty string rather
than a missing field.  The netloc components are quantified over the shapes
accepted by the authority pattern, and the key over characters without
query metacharacters or percent escapes. -/
theorem c10_blank_query_value_kept
    (u hst p k : List Char)
    (hu : u ≠ []) (huc : ∀ c ∈ u, isUuidChar c = true)
    (hh : hst ≠ []) (hhc : ∀ c ∈ hst, c ≠ ':')
    (hp : p ≠ []) (hpc : ∀ c ∈ p, isAsciiDigit c = true)
    (hk : ∀ c ∈ k, c ≠ '&' ∧ c ≠ '=' ∧ c ≠ '%' ∧ c ≠ '+') :
    parseVlessSubscr (String.mk (u ++ '@' :: (hst ++ ':' :: p)))
      (String.mk (k ++ ['='])) =
    Except.ok [("n_uuid", PyVal.str (String.mk u)),
      ("n_host", PyVal.str (String.mk hst)),
      ("n_port", PyVal.int
        ((p.foldl (fun acc c => acc * 10 + (c.toNat - 48)) 0 : Nat) : Int)),
      ("q_" ++ String.mk k, PyVal.str "")] := by
  have hmatch : matchVlessNetloc (String.mk (u ++ '@' :: (hst ++ ':' :: p))) =
      some (String.mk u, String.mk hst,
        p.foldl (fun acc c => acc * 10 + (c.toNat - 48)) 0) := by
    obtain ⟨ht1, hd1⟩ := takeWhile_all_append '@'
      (hst ++ ':' :: p) huc (by decide)
    have hhc' : ∀ c ∈ hst, (fun c => decide ¬(c = ':')) c = true := by
      intro c hc
      simpa using hhc c hc
    obtain ⟨ht2, hd2⟩ := takeWhile_all_append ':' p hhc'
      (by decide)
    simp only [matchVlessNetloc, ht1, hd1, ht2, hd2]
    simp [hu, hh, hp, List.all_eq_true]
    exact hpc
  have hqsl : parse_qsl (String.mk (k ++ ['='])) = [(String.mk k, "")] := by
    have hsep : ∀ c ∈ k ++ ['='], c ≠ '&' := by
      intro c hc
      rcases List.mem_append.mp hc with hc1 | hc1
      · exact (hk c hc1).1
      · simp at hc1
        subst hc1
        decide
    have heqk : ∀ c ∈ k, c ≠ '=' := fun c hc => (hk c hc).2.1
    unfold parse_qsl
    rw [show (String.mk (k ++ ['='])).data = k ++ '=' :: [] from rfl]
    rw [splitChar_no_sep hsep]
    simp only [List.filterMap]
    rw [show splitFirst '=' (k ++ '=' :: []) = (k, some []) from
      splitFirst_no_sep_append heqk]
    simp [unquotePlus_lit (fun c hc => ⟨(hk c hc).2.2.1, (hk c hc).2.2.2⟩)]
    rfl
  have hne1 : ¬(("n_uuid" : String) = String.mk ('q' :: '_' :: k)) := by
    intro hcontra
    have := congrArg String.data hcontra
    simp at this
  have hne2 : ¬(("n_host" : String) = String.mk ('q' :: '_' :: k)) := by
    intro hcontra
    have := congrArg String.data hcontra
    simp at this
  have hne3 : ¬(("n_port" : String) = String.mk ('q' :: '_' :: k)) := by
    intro hcontra
    have := congrArg String.data hcontra
    simp at this
  unfold parseVlessSubscr
  rw [hmatch]
  unfold parse_qs
  rw [hqsl]
  simp only [List.foldl]
  rw [show ("q_" ++ String.mk k : String) = String.mk ('q' :: '_' :: k)
    from rfl]
  simp [setItem, hne1, hne2, hne3]

/-- Witness for C10: the query `security=` on a well-formed vless authority
yields a record with `q_security` bound to the empty string. -/
theorem c10_witness :
    parseVlessSubscr "aaaa@h:443" "security=" =
      Except.ok [("n_uuid", PyVal.str "aaaa"), ("n_host", PyVal.str "h"),
        ("n_port", PyVal.int 443), ("q_security", PyVal.str "")] := by
  have h := c10_blank_query_value_kept
    ['a', 'a', 'a', 'a'] ['h'] ['4', '4', '3']
    ['s', 'e', 'c', 'u', 'r', 'i', 't', 'y']
    (by decide) (by decide) (by decide) (by decide) (by decide) (by decide)
    (by decide)
  exact Eq.trans h (by decide)

/-- C8, counterexample to the unrestricted claim: a record with network
type `grpc` but no `q_security` field does not produce the unsupported
signal — the security-stage lookup raises `KeyError` before the network
type is examined, and the run aborts instead of counting the entry as
skipped and continuing. -/
theorem c8_network_missing_security_counterexample :
    genVlessStreamSettings [("q_type", PyVal.str "grpc")] =
      Except.error (PyErr.keyError "q_security") ∧
    processEntries false 0
      [⟨"vless", PyVal.str "G", some [("q_type", PyVal.str "grpc")]⟩,
       ⟨"ss", PyVal.str "<unknown>", none⟩] =
      Except.error (PyErr.keyError "q_security") := by
  constructor
  · decide
  · decide
